import Mathlib

/-!
# pgx `pool` package: resource lifecycle of the convenience layer

Embedding of `pool/pool.go`.

* `Pool σ` is the Go `Pool` struct: the field `p` is the state of the
  `*puddle.Pool` it owns; `calls` is a ghost field recording, oldest first,
  every call the package makes on the resource pool, on a borrowed resource
  and on a borrowed connection.
* `Puddle σ` is the interface of the `puddle` resource pool that `pool.go`
  calls (`NewPool`, `Acquire`, `Release`, `Close`, `Stat`).  The functions of
  `pool.go` are written once, over an arbitrary `Puddle σ`.
* `Driver` is the interface of the connection methods `pool.go` calls
  (`c.Exec`, `c.Query`, `c.QueryRow`, `c.Begin`); their results are decided
  by the database, so they are arbitrary functions.
* `ResourcePool` with `puddle` is the resource pool of the design document
  (section 4.1), as one instance of `Puddle`.

A call that blocks its caller forever is a result `none`; the state that
comes with it is the state at the point where the caller is parked.
-/

namespace Pgx

/-! ## Data model -/

/-- Failure taxonomy of the design document (section 7).  `ProtocolError`
carries the failure reported by the database. -/
inductive Error where
  | PoolClosed
  | ConstructFailed
  | Cancelled
  | ProtocolError (code : Nat)
  deriving DecidableEq, Repr

/-- A `context.Context` as far as the pool looks at it: whether its
cancellation fires before the `Acquire` it is passed to has obtained a
resource. -/
structure Context where
  cancelled : Bool
  deriving DecidableEq, Repr

/-- The value of `context.Background()`: never cancelled. -/
def Context.Background : Context := ⟨false⟩

/-- A `*puddle.Resource`, named by the order of its construction. -/
structure Resource where
  id : Nat
  deriving DecidableEq, Repr

/-- The package's `Conn`: `&Conn{res: res}`. -/
structure Conn where
  res : Resource
  deriving DecidableEq, Repr

/-- A `pgconn.CommandTag` (a Go string type: `Exec` returns `""` for it). -/
abbrev CommandTag := String

/-- A `pgx.Rows` produced by the connection (handle of the protocol object). -/
structure PgxRows where
  handle : Nat
  deriving DecidableEq, Repr

/-- A `pgx.Row` produced by the connection. -/
structure PgxRow where
  handle : Nat
  deriving DecidableEq, Repr

/-- A `*pgx.Tx` produced by the connection. -/
structure PgxTx where
  handle : Nat
  deriving DecidableEq, Repr

/-- The `pgx.Rows` values `Pool.Query` returns: `errRows{err: err}` or
`&poolRows{r: rows, c: c}`. -/
inductive Rows where
  | errRows (err : Error)
  | poolRows (r : PgxRows) (c : Conn)
  deriving DecidableEq, Repr

/-- The `pgx.Row` values `Pool.QueryRow` returns: `errRow{err: err}` or
`&poolRow{r: row, c: c}`. -/
inductive Row where
  | errRow (err : Error)
  | poolRow (r : PgxRow) (c : Conn)
  deriving DecidableEq, Repr

/-- The package's `Tx`: `&Tx{t: t, c: c}`. -/
structure Tx where
  t : PgxTx
  c : Conn
  deriving DecidableEq, Repr

/-- The snapshot `puddle.Pool.Stat` returns. -/
structure PuddleStat where
  capacity : Nat
  live : Nat
  idle : Nat
  acquired : Nat
  deriving DecidableEq, Repr

/-- The package's `Stat`: `&Stat{s: p.p.Stat()}`. -/
structure Stat where
  s : PuddleStat
  deriving DecidableEq, Repr

/-- One call made by the package on its collaborators.  An `acquire` is
recorded with what it returned (`none`: it has not returned). -/
inductive Call where
  | newPool (connString : String) (maxSize : Nat)
  | acquire (ctx : Context) (result : Option (Except Error Resource))
  | release (res : Resource)
  | close
  | exec (c : Conn) (ctx : Context) (sql : String) (arguments : List String)
  | query (c : Conn) (ctx : Context) (sql : String) (args : List String)
  | queryRow (c : Conn) (ctx : Context) (sql : String) (args : List String)
  | begin (c : Conn)

/-- Is the call a `Release` of a resource? -/
def Call.isRelease : Call → Bool
  | .release _ => true
  | _ => false

/-- Is the call an `Acquire` on the resource pool that returned a resource? -/
def Call.isAcquired : Call → Bool
  | .acquire _ (some (.ok _)) => true
  | _ => false

/-- Is the call a `Close` of the resource pool? -/
def Call.isClose : Call → Bool
  | .close => true
  | _ => false

/-- Is the call a protocol call on a borrowed connection? -/
def Call.isProtocol : Call → Bool
  | .exec _ _ _ _ => true
  | .query _ _ _ _ => true
  | .queryRow _ _ _ _ => true
  | .begin _ => true
  | _ => false

/-- Number of `Release` calls in a record of calls. -/
def releaseCount (calls : List Call) : Nat := calls.countP Call.isRelease

/-- Number of `Acquire` calls that returned a resource in a record of calls. -/
def acquiredCount (calls : List Call) : Nat := calls.countP Call.isAcquired

/-- Number of `Close` calls in a record of calls. -/
def closeCount (calls : List Call) : Nat := calls.countP Call.isClose

/-- Number of protocol calls in a record of calls. -/
def protocolCount (calls : List Call) : Nat := calls.countP Call.isProtocol

/-- The resource pool as `pool.go` uses it (package `puddle`, not part of
this repository).  `Acquire` and `Close` may block: their result is then
`none`.  `NewPool connString maxSize` stands for
`puddle.NewPool(constructor, destructor, maxSize)`, whose constructor closes
over `connString` and whose destructor is fixed. -/
structure Puddle (σ : Type) where
  NewPool : String → Nat → σ
  Acquire : Context → σ → Option (Except Error Resource) × σ
  Release : Resource → σ → σ
  Close : σ → Option Unit × σ
  Stat : σ → PuddleStat

/-- The methods of a borrowed connection that `pool.go` calls (`conn.go`
forwards them to the `*pgx.Conn` inside the resource).  What they return is
decided by the database. -/
structure Driver where
  Exec : Conn → Context → String → List String → CommandTag × Option Error
  Query : Conn → Context → String → List String → Except Error PgxRows
  QueryRow : Conn → Context → String → List String → PgxRow
  Begin : Conn → Except Error PgxTx

/-- The Go `Pool` struct, with the ghost record of calls. -/
structure Pool (σ : Type) where
  p : σ
  calls : List Call

variable {σ : Type}

/-! ## Calls on the collaborators, recorded -/

/-- The call `p.p.Acquire(ctx)`. -/
def Pool.puddleAcquire (B : Puddle σ) (ctx : Context) (p : Pool σ) :
    Option (Except Error Resource) × Pool σ :=
  ((B.Acquire ctx p.p).1,
    ⟨(B.Acquire ctx p.p).2, p.calls ++ [Call.acquire ctx (B.Acquire ctx p.p).1]⟩)

/-- The call `res.Release()` of a `*puddle.Resource`. -/
def Resource.Release (B : Puddle σ) (res : Resource) (p : Pool σ) : Pool σ :=
  ⟨B.Release res p.p, p.calls ++ [Call.release res]⟩

/-- The call `p.p.Close()`. -/
def Pool.puddleClose (B : Puddle σ) (p : Pool σ) : Option Unit × Pool σ :=
  ((B.Close p.p).1, ⟨(B.Close p.p).2, p.calls ++ [Call.close]⟩)

/-- Modelled from the spec: `Conn.Release` (its file, `conn.go`, is missing)
returns the borrowed resource to its pool: it is `c.res.Release()`. -/
def Conn.Release (B : Puddle σ) (c : Conn) (p : Pool σ) : Pool σ :=
  c.res.Release B p

/-- The call `c.Exec(ctx, sql, arguments...)`. -/
def Conn.Exec (D : Driver) (c : Conn) (ctx : Context) (sql : String)
    (arguments : List String) (p : Pool σ) : (CommandTag × Option Error) × Pool σ :=
  (D.Exec c ctx sql arguments, ⟨p.p, p.calls ++ [Call.exec c ctx sql arguments]⟩)

/-- The call `c.Query(ctx, sql, args...)`. -/
def Conn.Query (D : Driver) (c : Conn) (ctx : Context) (sql : String)
    (args : List String) (p : Pool σ) : Except Error PgxRows × Pool σ :=
  (D.Query c ctx sql args, ⟨p.p, p.calls ++ [Call.query c ctx sql args]⟩)

/-- The call `c.QueryRow(ctx, sql, args...)`. -/
def Conn.QueryRow (D : Driver) (c : Conn) (ctx : Context) (sql : String)
    (args : List String) (p : Pool σ) : PgxRow × Pool σ :=
  (D.QueryRow c ctx sql args, ⟨p.p, p.calls ++ [Call.queryRow c ctx sql args]⟩)

/-- The call `c.Begin()`. -/
def Conn.Begin (D : Driver) (c : Conn) (p : Pool σ) : Except Error PgxTx × Pool σ :=
  (D.Begin c, ⟨p.p, p.calls ++ [Call.begin c]⟩)

/-! ## `pool.go` -/

/-- `Connect(ctx, connString)`.  The second component is the pool object as
the call leaves it, also when `nil` is returned. -/
def Connect (B : Puddle σ) (ctx : Context) (connString : String) :
    Option (Option (Pool σ) × Option Error) × Pool σ :=
  let maxConnections := 5
  let p : Pool σ :=
    ⟨B.NewPool connString maxConnections, [Call.newPool connString maxConnections]⟩
  match p.puddleAcquire B ctx with
  | (none, p1) => (none, p1)
  | (some (.error err), p1) =>
    match p1.puddleClose B with
    | (none, p2) => (none, p2)
    | (some _, p2) => (some (none, some err), p2)
  | (some (.ok res), p1) =>
    let p2 := res.Release B p1
    (some (some p2, none), p2)

/-- `(*Pool).Close()`. -/
def Pool.Close (B : Puddle σ) (p : Pool σ) : Option Unit × Pool σ :=
  p.puddleClose B

/-- `(*Pool).Acquire(ctx)`. -/
def Pool.Acquire (B : Puddle σ) (ctx : Context) (p : Pool σ) :
    Option (Option Conn × Option Error) × Pool σ :=
  match p.puddleAcquire B ctx with
  | (none, p1) => (none, p1)
  | (some (.error err), p1) => (some (none, some err), p1)
  | (some (.ok res), p1) => (some (some ⟨res⟩, none), p1)

/-- `(*Pool).Stat()`. -/
def Pool.Stat (B : Puddle σ) (p : Pool σ) : Stat :=
  ⟨B.Stat p.p⟩

/-- `(*Pool).Exec(ctx, sql, arguments...)`.  The deferred `c.Release()` runs
after `c.Exec` has produced the values to return.  A `nil` connection with a
`nil` error (never returned by `Acquire`) would be dereferenced: no return. -/
def Pool.Exec (B : Puddle σ) (D : Driver) (ctx : Context) (sql : String)
    (arguments : List String) (p : Pool σ) :
    Option (CommandTag × Option Error) × Pool σ :=
  match p.Acquire B ctx with
  | (none, p1) => (none, p1)
  | (some (_, some err), p1) => (some ("", some err), p1)
  | (some (none, none), p1) => (none, p1)
  | (some (some c, none), p1) =>
    match c.Exec D ctx sql arguments p1 with
    | (r, p2) => (some r, c.Release B p2)

/-- `(*Pool).Query(ctx, sql, args...)`. -/
def Pool.Query (B : Puddle σ) (D : Driver) (ctx : Context) (sql : String)
    (args : List String) (p : Pool σ) : Option (Rows × Option Error) × Pool σ :=
  match p.Acquire B ctx with
  | (none, p1) => (none, p1)
  | (some (_, some err), p1) => (some (Rows.errRows err, some err), p1)
  | (some (none, none), p1) => (none, p1)
  | (some (some c, none), p1) =>
    match c.Query D ctx sql args p1 with
    | (.error err, p2) => (some (Rows.errRows err, some err), c.Release B p2)
    | (.ok rows, p2) => (some (Rows.poolRows rows c, none), p2)

/-- `(*Pool).QueryRow(ctx, sql, args...)`. -/
def Pool.QueryRow (B : Puddle σ) (D : Driver) (ctx : Context) (sql : String)
    (args : List String) (p : Pool σ) : Option Row × Pool σ :=
  match p.Acquire B ctx with
  | (none, p1) => (none, p1)
  | (some (_, some err), p1) => (some (Row.errRow err), p1)
  | (some (none, none), p1) => (none, p1)
  | (some (some c, none), p1) =>
    match c.QueryRow D ctx sql args p1 with
    | (row, p2) => (some (Row.poolRow row c), p2)

/-- `(*Pool).Begin()`. -/
def Pool.Begin (B : Puddle σ) (D : Driver) (p : Pool σ) :
    Option (Option Tx × Option Error) × Pool σ :=
  match p.Acquire B Context.Background with
  | (none, p1) => (none, p1)
  | (some (_, some err), p1) => (some (none, some err), p1)
  | (some (none, none), p1) => (none, p1)
  | (some (some c, none), p1) =>
    match c.Begin D p1 with
    | (.error err, p2) => (some (none, some err), p2)
    | (.ok t, p2) => (some (some ⟨t, c⟩, none), p2)

/-! ## The resource pool of the design document (section 4.1) -/

/-- Modelled from the spec: the `ResourcePool` of sections 3 and 4.1 (the
`puddle` package is not among the sources).  `idle` is the ordered idle set,
`acquired` the resources in state Acquired, `liveCount` the number of
resources currently constructed.  `constructed` and `destructed` count the
runs of the constructor callback that succeeded and the runs of the
destructor callback.  `script` holds the outcomes of the coming runs of the
constructor callback (`true`: the connection is established); once it is used
up the constructor succeeds. -/
structure ResourcePool where
  capacity : Nat
  idle : List Resource
  acquired : List Resource
  liveCount : Nat
  closed : Bool
  constructed : Nat
  destructed : Nat
  script : List Bool
  deriving DecidableEq, Repr

/-- Modelled from the spec: a new `ResourcePool` of the given capacity; no
resource is constructed ahead of the first `Acquire` (section 9). -/
def ResourcePool.NewPool (script : List Bool) (capacity : Nat) : ResourcePool :=
  { capacity := capacity, idle := [], acquired := [], liveCount := 0, closed := false,
    constructed := 0, destructed := 0, script := script }

/-- Modelled from the spec: `ResourcePool.Acquire` (section 4.1; `puddle` is
not among the sources).  A closed pool fails with `PoolClosed`.  An idle
resource is handed out at once.  Below capacity the constructor callback runs:
its success adds a live resource, its failure leaves the live count and gives
`ConstructFailed`; a cancellation fired meanwhile makes the call fail with
`Cancelled`, and a resource constructed all the same becomes idle (section 5).
At capacity with nothing idle the caller waits: `Cancelled` when its
cancellation fires, and otherwise it stays parked (`none`) until a later
`Release` or `Close`. -/
def ResourcePool.Acquire (ctx : Context) (rp : ResourcePool) :
    Option (Except Error Resource) × ResourcePool :=
  if rp.closed then (some (.error Error.PoolClosed), rp)
  else
    match rp.idle with
    | r :: rest => (some (.ok r), { rp with idle := rest, acquired := rp.acquired ++ [r] })
    | [] =>
      if rp.liveCount < rp.capacity then
        if rp.script.headD true then
          let r : Resource := ⟨rp.constructed⟩
          if ctx.cancelled then
            (some (.error Error.Cancelled),
              { rp with script := rp.script.tail, constructed := rp.constructed + 1,
                        liveCount := rp.liveCount + 1, idle := [r] })
          else
            (some (.ok r),
              { rp with script := rp.script.tail, constructed := rp.constructed + 1,
                        liveCount := rp.liveCount + 1, acquired := rp.acquired ++ [r] })
        else if ctx.cancelled then
          (some (.error Error.Cancelled), { rp with script := rp.script.tail })
        else
          (some (.error Error.ConstructFailed), { rp with script := rp.script.tail })
      else if ctx.cancelled then (some (.error Error.Cancelled), rp)
      else (none, rp)

/-- Modelled from the spec: `ResourcePool.Release` (section 4.1).  On a closed
pool the destructor callback runs and the live count drops; otherwise the
resource moves from Acquired to Idle.  Releasing a resource that is not
Acquired is a programmer error the document leaves undefined: here it changes
nothing, and the runs of `Pool.step` exclude it. -/
def ResourcePool.Release (r : Resource) (rp : ResourcePool) : ResourcePool :=
  if r ∈ rp.acquired then
    if rp.closed then
      { rp with acquired := rp.acquired.erase r, liveCount := rp.liveCount - 1,
                destructed := rp.destructed + 1 }
    else
      { rp with acquired := rp.acquired.erase r, idle := rp.idle ++ [r] }
  else rp

/-- Modelled from the spec: `ResourcePool.Close` (section 4.1).  It sets
`closed`, runs the destructor callback on every idle resource, and then
blocks until every Acquired resource has been released: it returns at once
when none is Acquired and otherwise leaves its caller parked (`none`). -/
def ResourcePool.Close (rp : ResourcePool) : Option Unit × ResourcePool :=
  let rp1 : ResourcePool :=
    { rp with closed := true, idle := [], liveCount := rp.liveCount - rp.idle.length,
              destructed := rp.destructed + rp.idle.length }
  (if rp1.acquired.isEmpty then some () else none, rp1)

/-- Modelled from the spec: `ResourcePool.Stat` (sections 3 and 4.1), the
snapshot of capacity, live count, idle count and acquired count. -/
def ResourcePool.Stat (rp : ResourcePool) : PuddleStat :=
  { capacity := rp.capacity, live := rp.liveCount, idle := rp.idle.length,
    acquired := rp.acquired.length }

/-- Modelled from the spec: the resource pool of section 4.1 as the `Puddle`
that `pool.go` drives.  `net` gives the outcomes of the connection attempts
the constructor callback will make. -/
def puddle (net : List Bool) : Puddle ResourcePool :=
  { NewPool := fun _ maxSize => ResourcePool.NewPool net maxSize,
    Acquire := ResourcePool.Acquire,
    Release := ResourcePool.Release,
    Close := ResourcePool.Close,
    Stat := ResourcePool.Stat }

/-! ## Sequences of calls on a pool -/

/-- One call on the pool by some caller.  A protocol call comes with the
answers the database gives at that moment. -/
inductive Op where
  | Acquire (ctx : Context)
  | Release (c : Conn)
  | Exec (D : Driver) (ctx : Context) (sql : String) (arguments : List String)
  | Query (D : Driver) (ctx : Context) (sql : String) (args : List String)
  | QueryRow (D : Driver) (ctx : Context) (sql : String) (args : List String)
  | Begin (D : Driver)
  | Close

/-- The pool after one call, over the resource pool of the design document.
A call that parks its caller leaves the state of its blocking point; the
parked caller is not part of the state, so a released resource that goes to a
waiting caller is the `Release` step followed by that caller's `Acquire` step.
A `Release` of a connection whose resource is not Acquired is not a step. -/
def Pool.step (net : List Bool) (o : Op) (p : Pool ResourcePool) :
    Option (Pool ResourcePool) :=
  match o with
  | .Acquire ctx => some (p.Acquire (puddle net) ctx).2
  | .Release c => if c.res ∈ p.p.acquired then some (c.Release (puddle net) p) else none
  | .Exec D ctx sql arguments => some (p.Exec (puddle net) D ctx sql arguments).2
  | .Query D ctx sql args => some (p.Query (puddle net) D ctx sql args).2
  | .QueryRow D ctx sql args => some (p.QueryRow (puddle net) D ctx sql args).2
  | .Begin D => some (p.Begin (puddle net) D).2
  | .Close => some (p.Close (puddle net)).2

/-- The pool after a sequence of calls, `none` when one of them is not a step. -/
def Pool.run (net : List Bool) : List Op → Pool ResourcePool → Option (Pool ResourcePool)
  | [], p => some p
  | o :: os, p =>
    match p.step net o with
    | none => none
    | some p1 => Pool.run net os p1

/-- The counts of a resource pool are consistent and within capacity: the
live count is the number of idle plus Acquired resources and is at most the
capacity. -/
def ResourcePool.Bounded (rp : ResourcePool) : Prop :=
  rp.liveCount = rp.idle.length + rp.acquired.length ∧ rp.liveCount ≤ rp.capacity

/-- The resource pool is closed and holds no resource, idle or Acquired. -/
def ResourcePool.Drained (rp : ResourcePool) : Prop :=
  rp.closed = true ∧ rp.idle = [] ∧ rp.acquired = []

instance (rp : ResourcePool) : Decidable rp.Bounded := by
  unfold ResourcePool.Bounded
  exact inferInstance

instance (rp : ResourcePool) : Decidable rp.Drained := by
  unfold ResourcePool.Drained
  exact inferInstance

/-! ## Concrete collaborators, for evaluating the code -/

/-- A database that refuses every protocol call with `ProtocolError 7`. -/
def Driver.refusing : Driver :=
  { Exec := fun _ _ _ _ => ("", some (Error.ProtocolError 7)),
    Query := fun _ _ _ _ => .error (Error.ProtocolError 7),
    QueryRow := fun _ _ _ _ => ⟨0⟩,
    Begin := fun _ => .error (Error.ProtocolError 7) }

/-- A database that serves every protocol call. -/
def Driver.serving : Driver :=
  { Exec := fun _ _ _ _ => ("SELECT 1", none),
    Query := fun _ _ _ _ => .ok ⟨1⟩,
    QueryRow := fun _ _ _ _ => ⟨2⟩,
    Begin := fun _ => .ok ⟨3⟩ }

/-- The pool object `Connect` leaves when the target accepts connections. -/
def Pool.connected : Pool ResourcePool :=
  (Connect (puddle []) Context.Background "host=db").2

/-! ## Unfolding the recorded calls -/

section Lemmas

variable (B : Puddle σ) (D : Driver)

theorem Pool.Acquire_ok {ctx : Context} {p : Pool σ} {r : Resource} {s1 : σ}
    (h : B.Acquire ctx p.p = (some (.ok r), s1)) :
    p.Acquire B ctx =
      (some (some ⟨r⟩, none), ⟨s1, p.calls ++ [Call.acquire ctx (some (.ok r))]⟩) := by
  simp [Pool.Acquire, Pool.puddleAcquire, h]

theorem Pool.Acquire_error {ctx : Context} {p : Pool σ} {e : Error} {s1 : σ}
    (h : B.Acquire ctx p.p = (some (.error e), s1)) :
    p.Acquire B ctx =
      (some (none, some e), ⟨s1, p.calls ++ [Call.acquire ctx (some (.error e))]⟩) := by
  simp [Pool.Acquire, Pool.puddleAcquire, h]

theorem Pool.Acquire_blocked {ctx : Context} {p : Pool σ} {s1 : σ}
    (h : B.Acquire ctx p.p = (none, s1)) :
    p.Acquire B ctx = (none, ⟨s1, p.calls ++ [Call.acquire ctx none]⟩) := by
  simp [Pool.Acquire, Pool.puddleAcquire, h]

theorem releaseCount_append (xs ys : List Call) :
    releaseCount (xs ++ ys) = releaseCount xs + releaseCount ys := by
  simp [releaseCount]

theorem acquiredCount_append (xs ys : List Call) :
    acquiredCount (xs ++ ys) = acquiredCount xs + acquiredCount ys := by
  simp [acquiredCount]

theorem protocolCount_append (xs ys : List Call) :
    protocolCount (xs ++ ys) = protocolCount xs + protocolCount ys := by
  simp [protocolCount]

/-- What `Begin` does when the connection refuses to start a transaction: it
returns `nil` and the error, and the last call it has made is `c.Begin()`. -/
theorem Pool.Begin_error {p : Pool σ} {r : Resource} {s1 : σ} {e : Error}
    (hacq : B.Acquire Context.Background p.p = (some (.ok r), s1))
    (hbegin : D.Begin ⟨r⟩ = .error e) :
    p.Begin B D =
      (some (none, some e),
        ⟨s1, p.calls ++ [Call.acquire Context.Background (some (.ok r)), Call.begin ⟨r⟩]⟩) := by
  simp [Pool.Begin, Pool.Acquire_ok B hacq, Conn.Begin, hbegin]

end Lemmas

/-! ## The claims -/

/-- C10: `Pool.Acquire` is a pass-through to the resource pool's `Acquire`.
It makes exactly one call on the resource pool, an `Acquire` with the caller's
context, and leaves the resource pool in the state that call leaves.  When
the call returns resource `r`, the result is a handle wrapping `r` and a nil
error; when it returns error `e`, the result is a nil handle and `e`; while it
blocks, `Pool.Acquire` has not returned. -/
theorem Pool_Acquire_pass_through (B : Puddle σ) (ctx : Context) (p : Pool σ) :
    (p.Acquire B ctx).2 =
        ⟨(B.Acquire ctx p.p).2, p.calls ++ [Call.acquire ctx (B.Acquire ctx p.p).1]⟩ ∧
      (∀ r, (B.Acquire ctx p.p).1 = some (.ok r) →
        (p.Acquire B ctx).1 = some (some ⟨r⟩, none)) ∧
      (∀ e, (B.Acquire ctx p.p).1 = some (.error e) →
        (p.Acquire B ctx).1 = some (none, some e)) ∧
      ((B.Acquire ctx p.p).1 = none → (p.Acquire B ctx).1 = none) := by
  rcases h : B.Acquire ctx p.p with ⟨o, s1⟩
  rcases o with _ | (e | r)
  · simp [Pool.Acquire_blocked B h]
  · simp [Pool.Acquire_error B h]
  · simp [Pool.Acquire_ok B h]

/-- Evaluation of C10 on the pool left by `Connect`: the idle resource 0 is
handed out, wrapped in a handle. -/
theorem Pool_Acquire_pass_through_witness :
    (puddle []).Acquire ⟨true⟩ Pool.connected.p =
        (some (.ok ⟨0⟩), ⟨5, [], [⟨0⟩], 1, false, 1, 0, []⟩) ∧
      (Pool.connected.Acquire (puddle []) ⟨true⟩).1 = some (some ⟨⟨0⟩⟩, none) :=
  ⟨rfl, (Pool_Acquire_pass_through (puddle []) ⟨true⟩ Pool.connected).2.1 ⟨0⟩ rfl⟩

/-- C2: when `Query`'s `Acquire` returns resource `r` and the protocol query
on it fails with `e`, `Query` returns the error rows storing `e` together with
`e`, and the calls it has made are the `Acquire`, the query and one `Release`
of `r`, in this order: one `Release` more than before. -/
theorem Pool_Query_error_releases_once (B : Puddle σ) (D : Driver) (ctx : Context)
    (sql : String) (args : List String) (p : Pool σ) (r : Resource) (s1 : σ) (e : Error)
    (hacq : B.Acquire ctx p.p = (some (.ok r), s1))
    (hquery : D.Query ⟨r⟩ ctx sql args = .error e) :
    p.Query B D ctx sql args =
        (some (Rows.errRows e, some e),
          ⟨B.Release r s1,
            p.calls ++ [Call.acquire ctx (some (.ok r)), Call.query ⟨r⟩ ctx sql args,
              Call.release r]⟩) ∧
      releaseCount (p.Query B D ctx sql args).2.calls = releaseCount p.calls + 1 := by
  have h : p.Query B D ctx sql args =
      (some (Rows.errRows e, some e),
        ⟨B.Release r s1,
          p.calls ++ [Call.acquire ctx (some (.ok r)), Call.query ⟨r⟩ ctx sql args,
            Call.release r]⟩) := by
    simp [Pool.Query, Pool.Acquire_ok B hacq, Conn.Query, hquery, Conn.Release,
      Resource.Release]
  refine ⟨h, ?_⟩
  rw [h, releaseCount_append]
  simp [releaseCount, Call.isRelease]

/-- Evaluation of C2: a refused query on the pool left by `Connect`. -/
theorem Pool_Query_error_releases_once_witness :
    (Pool.connected.Query (puddle []) Driver.refusing ⟨false⟩ "select 1" []).1 =
        some (Rows.errRows (Error.ProtocolError 7), some (Error.ProtocolError 7)) ∧
      releaseCount (Pool.connected.Query (puddle []) Driver.refusing ⟨false⟩ "select 1" []).2.calls
        = releaseCount Pool.connected.calls + 1 :=
  have h := Pool_Query_error_releases_once (puddle []) Driver.refusing ⟨false⟩ "select 1" []
    Pool.connected ⟨0⟩ ⟨5, [], [⟨0⟩], 1, false, 1, 0, []⟩ (Error.ProtocolError 7) rfl rfl
  ⟨congrArg Prod.fst h.1, h.2⟩

/-- C3: `Exec` releases what it acquires.  When its `Acquire` returns
resource `r`, `Exec` returns the command tag and the error of the protocol
call unchanged, whether that call succeeded or failed, and the calls it has
made are the `Acquire`, the protocol call and one `Release` of `r`.  When its
`Acquire` fails with `e`, `Exec` returns the empty command tag with `e` and has
made no other call.  In every case the `Release` calls `Exec` has added are as
many as its `Acquire` calls that returned a resource. -/
theorem Pool_Exec_release_balance (B : Puddle σ) (D : Driver) (ctx : Context)
    (sql : String) (arguments : List String) (p : Pool σ) :
    (∀ r s1, B.Acquire ctx p.p = (some (.ok r), s1) →
        p.Exec B D ctx sql arguments =
          (some (D.Exec ⟨r⟩ ctx sql arguments),
            ⟨B.Release r s1,
              p.calls ++ [Call.acquire ctx (some (.ok r)),
                Call.exec ⟨r⟩ ctx sql arguments, Call.release r]⟩)) ∧
      (∀ e s1, B.Acquire ctx p.p = (some (.error e), s1) →
        p.Exec B D ctx sql arguments =
          (some ("", some e), ⟨s1, p.calls ++ [Call.acquire ctx (some (.error e))]⟩)) ∧
      releaseCount (p.Exec B D ctx sql arguments).2.calls + acquiredCount p.calls =
        releaseCount p.calls + acquiredCount (p.Exec B D ctx sql arguments).2.calls := by
  have hok : ∀ r s1, B.Acquire ctx p.p = (some (.ok r), s1) →
      p.Exec B D ctx sql arguments =
        (some (D.Exec ⟨r⟩ ctx sql arguments),
          ⟨B.Release r s1,
            p.calls ++ [Call.acquire ctx (some (.ok r)),
              Call.exec ⟨r⟩ ctx sql arguments, Call.release r]⟩) := by
    intro r s1 h
    simp [Pool.Exec, Pool.Acquire_ok B h, Conn.Exec, Conn.Release, Resource.Release]
  have herr : ∀ e s1, B.Acquire ctx p.p = (some (.error e), s1) →
      p.Exec B D ctx sql arguments =
        (some ("", some e), ⟨s1, p.calls ++ [Call.acquire ctx (some (.error e))]⟩) := by
    intro e s1 h
    simp [Pool.Exec, Pool.Acquire_error B h]
  refine ⟨hok, herr, ?_⟩
  rcases h : B.Acquire ctx p.p with ⟨o, s1⟩
  rcases o with _ | (e | r)
  · simp [Pool.Exec, Pool.Acquire_blocked B h, releaseCount_append, acquiredCount_append,
      releaseCount, acquiredCount, Call.isRelease, Call.isAcquired]
  · rw [herr e s1 h, releaseCount_append, acquiredCount_append]
    simp [releaseCount, acquiredCount, Call.isRelease, Call.isAcquired]
  · rw [hok r s1 h, releaseCount_append, acquiredCount_append]
    simp [releaseCount, acquiredCount, Call.isRelease, Call.isAcquired]
    omega

/-- Evaluation of C3: on the pool left by `Connect` a refused `Exec` hands the
database's answer on and releases resource 0; on a closed pool `Exec` returns
the empty tag with `PoolClosed`. -/
theorem Pool_Exec_release_balance_witness :
    Pool.connected.Exec (puddle []) Driver.refusing ⟨false⟩ "delete from t" [] =
        (some ("", some (Error.ProtocolError 7)),
          ⟨⟨5, [⟨0⟩], [], 1, false, 1, 0, []⟩,
            Pool.connected.calls ++ [Call.acquire ⟨false⟩ (some (.ok ⟨0⟩)),
              Call.exec ⟨⟨0⟩⟩ ⟨false⟩ "delete from t" [], Call.release ⟨0⟩]⟩) ∧
      (Pool.connected.Close (puddle [])).2.Exec (puddle []) Driver.serving ⟨false⟩ "x" [] =
        (some ("", some Error.PoolClosed),
          ⟨⟨5, [], [], 0, true, 1, 1, []⟩,
            (Pool.connected.Close (puddle [])).2.calls ++
              [Call.acquire ⟨false⟩ (some (.error Error.PoolClosed))]⟩) :=
  ⟨(Pool_Exec_release_balance (puddle []) Driver.refusing ⟨false⟩ "delete from t" []
      Pool.connected).1 ⟨0⟩ ⟨5, [], [⟨0⟩], 1, false, 1, 0, []⟩ rfl,
   (Pool_Exec_release_balance (puddle []) Driver.serving ⟨false⟩ "x" []
      (Pool.connected.Close (puddle [])).2).2.1 Error.PoolClosed
        ⟨5, [], [], 0, true, 1, 1, []⟩ rfl⟩

/-- C4: when the `Acquire` of `Query`, `QueryRow` or `Begin` returns resource
`r` and the protocol call produces its object, the method returns the wrapper
holding that object and the handle of `r` (with a nil error for `Query` and
`Begin`), the calls it has made are the `Acquire` and the protocol call, none
of them a `Release`, and the resource pool is in the state in which the
`Acquire` left it. -/
theorem Pool_success_transfers_ownership (B : Puddle σ) (D : Driver) (p : Pool σ) :
    (∀ ctx sql args r s1 rows, B.Acquire ctx p.p = (some (.ok r), s1) →
        D.Query ⟨r⟩ ctx sql args = .ok rows →
        p.Query B D ctx sql args =
            (some (Rows.poolRows rows ⟨r⟩, none),
              ⟨s1, p.calls ++ [Call.acquire ctx (some (.ok r)),
                Call.query ⟨r⟩ ctx sql args]⟩) ∧
          releaseCount (p.Query B D ctx sql args).2.calls = releaseCount p.calls) ∧
      (∀ ctx sql args r s1, B.Acquire ctx p.p = (some (.ok r), s1) →
        p.QueryRow B D ctx sql args =
            (some (Row.poolRow (D.QueryRow ⟨r⟩ ctx sql args) ⟨r⟩),
              ⟨s1, p.calls ++ [Call.acquire ctx (some (.ok r)),
                Call.queryRow ⟨r⟩ ctx sql args]⟩) ∧
          releaseCount (p.QueryRow B D ctx sql args).2.calls = releaseCount p.calls) ∧
      (∀ r s1 t, B.Acquire Context.Background p.p = (some (.ok r), s1) →
        D.Begin ⟨r⟩ = .ok t →
        p.Begin B D =
            (some (some ⟨t, ⟨r⟩⟩, none),
              ⟨s1, p.calls ++ [Call.acquire Context.Background (some (.ok r)),
                Call.begin ⟨r⟩]⟩) ∧
          releaseCount (p.Begin B D).2.calls = releaseCount p.calls) := by
  refine ⟨?_, ?_, ?_⟩
  · intro ctx sql args r s1 rows hacq hq
    have h : p.Query B D ctx sql args =
        (some (Rows.poolRows rows ⟨r⟩, none),
          ⟨s1, p.calls ++ [Call.acquire ctx (some (.ok r)),
            Call.query ⟨r⟩ ctx sql args]⟩) := by
      simp [Pool.Query, Pool.Acquire_ok B hacq, Conn.Query, hq]
    refine ⟨h, ?_⟩
    rw [h, releaseCount_append]
    simp [releaseCount, Call.isRelease]
  · intro ctx sql args r s1 hacq
    have h : p.QueryRow B D ctx sql args =
        (some (Row.poolRow (D.QueryRow ⟨r⟩ ctx sql args) ⟨r⟩),
          ⟨s1, p.calls ++ [Call.acquire ctx (some (.ok r)),
            Call.queryRow ⟨r⟩ ctx sql args]⟩) := by
      simp [Pool.QueryRow, Pool.Acquire_ok B hacq, Conn.QueryRow]
    refine ⟨h, ?_⟩
    rw [h, releaseCount_append]
    simp [releaseCount, Call.isRelease]
  · intro r s1 t hacq hb
    have h : p.Begin B D =
        (some (some ⟨t, ⟨r⟩⟩, none),
          ⟨s1, p.calls ++ [Call.acquire Context.Background (some (.ok r)),
            Call.begin ⟨r⟩]⟩) := by
      simp [Pool.Begin, Pool.Acquire_ok B hacq, Conn.Begin, hb]
    refine ⟨h, ?_⟩
    rw [h, releaseCount_append]
    simp [releaseCount, Call.isRelease]

/-- Evaluation of C4 on the pool left by `Connect`, with a database that
serves every call: each wrapper holds resource 0, which stays Acquired. -/
theorem Pool_success_transfers_ownership_witness :
    ((Pool.connected.Query (puddle []) Driver.serving ⟨false⟩ "select 1" []).1 =
          some (Rows.poolRows ⟨1⟩ ⟨⟨0⟩⟩, none) ∧
        (Pool.connected.Query (puddle []) Driver.serving ⟨false⟩ "select 1" []).2.p.acquired =
          [⟨0⟩]) ∧
      (Pool.connected.QueryRow (puddle []) Driver.serving ⟨false⟩ "select 1" []).1 =
          some (Row.poolRow ⟨2⟩ ⟨⟨0⟩⟩) ∧
      (Pool.connected.Begin (puddle []) Driver.serving).1 = some (some ⟨⟨3⟩, ⟨⟨0⟩⟩⟩, none) :=
  have h := Pool_success_transfers_ownership (puddle []) Driver.serving Pool.connected
  have hq := (h.1 ⟨false⟩ "select 1" [] ⟨0⟩ ⟨5, [], [⟨0⟩], 1, false, 1, 0, []⟩ ⟨1⟩ rfl rfl).1
  have hr := (h.2.1 ⟨false⟩ "select 1" [] ⟨0⟩ ⟨5, [], [⟨0⟩], 1, false, 1, 0, []⟩ rfl).1
  have hb := (h.2.2 ⟨0⟩ ⟨5, [], [⟨0⟩], 1, false, 1, 0, []⟩ ⟨3⟩ rfl rfl).1
  ⟨⟨congrArg Prod.fst hq, congrArg (fun x => x.2.p.acquired) hq⟩,
    congrArg Prod.fst hr, congrArg Prod.fst hb⟩

/-- C5: when the `Acquire` of `Query` or `QueryRow` fails with `e`, the result
is the error rows (the error row) storing exactly `e`, `Query` also returns
`e`, and the failed `Acquire` is the only call the method has made: no
protocol call, no `Release`, and the resource pool, hence its `Stat`, is as
the failed `Acquire` left it. -/
theorem Pool_Query_acquire_failure (B : Puddle σ) (D : Driver) (ctx : Context)
    (sql : String) (args : List String) (p : Pool σ) (e : Error) (s1 : σ)
    (hacq : B.Acquire ctx p.p = (some (.error e), s1)) :
    (p.Query B D ctx sql args =
          (some (Rows.errRows e, some e),
            ⟨s1, p.calls ++ [Call.acquire ctx (some (.error e))]⟩) ∧
        p.QueryRow B D ctx sql args =
          (some (Row.errRow e), ⟨s1, p.calls ++ [Call.acquire ctx (some (.error e))]⟩)) ∧
      (releaseCount (p.Query B D ctx sql args).2.calls = releaseCount p.calls ∧
        protocolCount (p.Query B D ctx sql args).2.calls = protocolCount p.calls ∧
        (p.Query B D ctx sql args).2.Stat B = ⟨B.Stat s1⟩) ∧
      (releaseCount (p.QueryRow B D ctx sql args).2.calls = releaseCount p.calls ∧
        protocolCount (p.QueryRow B D ctx sql args).2.calls = protocolCount p.calls ∧
        (p.QueryRow B D ctx sql args).2.Stat B = ⟨B.Stat s1⟩) := by
  have hq : p.Query B D ctx sql args =
      (some (Rows.errRows e, some e),
        ⟨s1, p.calls ++ [Call.acquire ctx (some (.error e))]⟩) := by
    simp [Pool.Query, Pool.Acquire_error B hacq]
  have hr : p.QueryRow B D ctx sql args =
      (some (Row.errRow e), ⟨s1, p.calls ++ [Call.acquire ctx (some (.error e))]⟩) := by
    simp [Pool.QueryRow, Pool.Acquire_error B hacq]
  refine ⟨⟨hq, hr⟩, ?_, ?_⟩
  · rw [hq, releaseCount_append, protocolCount_append]
    simp [releaseCount, protocolCount, Call.isRelease, Call.isProtocol, Pool.Stat]
  · rw [hr, releaseCount_append, protocolCount_append]
    simp [releaseCount, protocolCount, Call.isRelease, Call.isProtocol, Pool.Stat]

/-- Evaluation of C5: on a pool at capacity 5 with every resource borrowed
and an already cancelled context, `Acquire` fails with `Cancelled`; `Query`
and `QueryRow` hand that error on and the counts stay as they were. -/
theorem Pool_Query_acquire_failure_witness :
    ((⟨⟨5, [], [⟨0⟩, ⟨1⟩, ⟨2⟩, ⟨3⟩, ⟨4⟩], 5, false, 5, 0, []⟩, []⟩ :
          Pool ResourcePool).Query (puddle []) Driver.serving ⟨true⟩ "select 1" []).1 =
        some (Rows.errRows Error.Cancelled, some Error.Cancelled) ∧
      ((⟨⟨5, [], [⟨0⟩, ⟨1⟩, ⟨2⟩, ⟨3⟩, ⟨4⟩], 5, false, 5, 0, []⟩, []⟩ :
          Pool ResourcePool).QueryRow (puddle []) Driver.serving ⟨true⟩ "select 1" []).1 =
        some (Row.errRow Error.Cancelled) ∧
      ((⟨⟨5, [], [⟨0⟩, ⟨1⟩, ⟨2⟩, ⟨3⟩, ⟨4⟩], 5, false, 5, 0, []⟩, []⟩ :
          Pool ResourcePool).Query (puddle []) Driver.serving ⟨true⟩ "select 1" []).2.Stat
            (puddle []) = ⟨⟨5, 5, 0, 5⟩⟩ :=
  have h := Pool_Query_acquire_failure (puddle []) Driver.serving ⟨true⟩ "select 1" []
    ⟨⟨5, [], [⟨0⟩, ⟨1⟩, ⟨2⟩, ⟨3⟩, ⟨4⟩], 5, false, 5, 0, []⟩, []⟩ Error.Cancelled
    ⟨5, [], [⟨0⟩, ⟨1⟩, ⟨2⟩, ⟨3⟩, ⟨4⟩], 5, false, 5, 0, []⟩ rfl
  ⟨congrArg Prod.fst h.1.1, congrArg Prod.fst h.1.2, h.2.1.2.2⟩

/-- C6: when the validating `Acquire` of `Connect` fails with `e`, the calls
`Connect` has made are the construction of the resource pool, that `Acquire`
and one `Close`, and `Connect` returns as soon as `Close` has: its result is
the nil pool together with exactly `e`, never a pool. -/
theorem Connect_acquire_failure_closes (B : Puddle σ) (ctx : Context)
    (connString : String) (e : Error) (s1 : σ)
    (hacq : B.Acquire ctx (B.NewPool connString 5) = (some (.error e), s1)) :
    (Connect B ctx connString).2 =
        ⟨(B.Close s1).2,
          [Call.newPool connString 5, Call.acquire ctx (some (.error e)), Call.close]⟩ ∧
      closeCount (Connect B ctx connString).2.calls = 1 ∧
      (Connect B ctx connString).1 = (B.Close s1).1.map (fun _ => (none, some e)) ∧
      ∀ q err, (Connect B ctx connString).1 ≠ some (some q, err) := by
  rcases hc : B.Close s1 with ⟨o, s2⟩
  have h : Connect B ctx connString =
      (o.map (fun _ => (none, some e)),
        ⟨s2, [Call.newPool connString 5, Call.acquire ctx (some (.error e)), Call.close]⟩) := by
    cases o <;> simp [Connect, Pool.puddleAcquire, Pool.puddleClose, hacq, hc]
  rw [h]
  refine ⟨rfl, by simp [closeCount, Call.isClose], rfl, ?_⟩
  intro q err
  cases o <;> simp

/-- With the resource pool of the design document, a `Connect` whose
validating `Acquire` fails does return: nothing is Acquired, so `Close` does
not wait. -/
theorem Connect_puddle_failure_returns (net : List Bool) (ctx : Context)
    (connString : String) (e : Error) (s1 : ResourcePool)
    (hacq : ResourcePool.Acquire ctx (ResourcePool.NewPool net 5) = (some (.error e), s1)) :
    (Connect (puddle net) ctx connString).1 = some (none, some e) := by
  have hs : s1.acquired = [] := by
    simp only [ResourcePool.Acquire, ResourcePool.NewPool] at hacq
    split_ifs at hacq <;> simp at hacq <;> simp [← hacq.2]
  simp [Connect, Pool.puddleAcquire, Pool.puddleClose, puddle, hacq, ResourcePool.Close, hs]

/-- Evaluation of C6: the target refuses the connection, `Connect` closes the
new resource pool and returns nil with `ConstructFailed`. -/
theorem Connect_acquire_failure_closes_witness :
    Connect (puddle [false]) ⟨false⟩ "host=down" =
      (some (none, some Error.ConstructFailed),
        ⟨⟨5, [], [], 0, true, 0, 0, []⟩,
          [Call.newPool "host=down" 5,
            Call.acquire ⟨false⟩ (some (.error Error.ConstructFailed)), Call.close]⟩) :=
  have h := Connect_acquire_failure_closes (puddle [false]) ⟨false⟩ "host=down"
    Error.ConstructFailed ⟨5, [], [], 0, false, 0, 0, []⟩ rfl
  Prod.ext h.2.2.1 h.1

/-- C1, evaluated: on the pool left by `Connect` (resource 0 idle, nothing
Acquired), with a connection that refuses to start a transaction, `Begin`
returns nil with the error after an `Acquire` that returned resource 0 and no
`Release`: the acquired count is 1 where it was 0. -/
theorem Pool_Begin_error_leaks :
    (Pool.connected.Begin (puddle []) Driver.refusing).1 =
        some (none, some (Error.ProtocolError 7)) ∧
      (Pool.connected.Begin (puddle []) Driver.refusing).2.calls =
        Pool.connected.calls ++
          [Call.acquire Context.Background (some (.ok ⟨0⟩)), Call.begin ⟨⟨0⟩⟩] ∧
      releaseCount (Pool.connected.Begin (puddle []) Driver.refusing).2.calls =
        releaseCount Pool.connected.calls ∧
      (Pool.connected.Stat (puddle [])).s.acquired = 0 ∧
      ((Pool.connected.Begin (puddle []) Driver.refusing).2.Stat (puddle [])).s.acquired = 1 :=
  ⟨rfl, rfl, by decide, by decide, by decide⟩

/-! ## The resource pool of the design document: what its calls preserve -/

theorem ResourcePool.Acquire_capacity (ctx : Context) (rp : ResourcePool) :
    (rp.Acquire ctx).2.capacity = rp.capacity := by
  unfold ResourcePool.Acquire
  repeat' split
  all_goals rfl

theorem ResourcePool.Release_capacity (r : Resource) (rp : ResourcePool) :
    (rp.Release r).capacity = rp.capacity := by
  unfold ResourcePool.Release
  split_ifs <;> rfl

theorem ResourcePool.Close_capacity (rp : ResourcePool) :
    rp.Close.2.capacity = rp.capacity := rfl

theorem ResourcePool.Acquire_bounded (ctx : Context) (rp : ResourcePool)
    (h : rp.Bounded) : (rp.Acquire ctx).2.Bounded := by
  obtain ⟨h1, h2⟩ := h
  unfold ResourcePool.Bounded
  by_cases hc : rp.closed = true
  · rw [ResourcePool.Acquire, if_pos hc]
    exact ⟨h1, h2⟩
  · rw [ResourcePool.Acquire, if_neg hc]
    cases hidle : rp.idle with
    | cons r rest =>
      rw [hidle] at h1
      simp only [List.length_append, List.length_cons, List.length_nil] at h1 ⊢
      omega
    | nil =>
      rw [hidle] at h1
      simp only [List.length_nil] at h1
      dsimp only
      split_ifs <;>
        simp only [List.length_append, List.length_cons, List.length_nil, hidle] <;> omega

theorem ResourcePool.Release_bounded (r : Resource) (rp : ResourcePool)
    (h : rp.Bounded) : (rp.Release r).Bounded := by
  unfold ResourcePool.Bounded at h ⊢
  unfold ResourcePool.Release
  split_ifs with hmem hc
  · have hpos : 0 < rp.acquired.length := List.length_pos_of_mem hmem
    simp only [List.length_erase_of_mem hmem]
    omega
  · have hpos : 0 < rp.acquired.length := List.length_pos_of_mem hmem
    simp only [List.length_erase_of_mem hmem, List.length_append, List.length_cons,
      List.length_nil]
    omega
  · exact h

theorem ResourcePool.Close_bounded (rp : ResourcePool) (h : rp.Bounded) :
    rp.Close.2.Bounded := by
  unfold ResourcePool.Bounded at h ⊢
  simp only [ResourcePool.Close, List.length_nil]
  omega

theorem ResourcePool.Acquire_drained (ctx : Context) (rp : ResourcePool)
    (h : rp.Drained) :
    rp.Acquire ctx = (some (.error Error.PoolClosed), rp) := by
  simp [ResourcePool.Acquire, h.1]

theorem ResourcePool.Release_drained (r : Resource) (rp : ResourcePool)
    (h : rp.Drained) : rp.Release r = rp := by
  simp [ResourcePool.Release, h.2.2]

theorem ResourcePool.Close_drained (rp : ResourcePool) (h : rp.Drained) :
    rp.Close.2.Drained := by
  obtain ⟨h1, h2, h3⟩ := h
  simp [ResourcePool.Close, ResourcePool.Drained, h3]

/-- A closed resource pool without idle resources stays so under `Acquire`. -/
theorem ResourcePool.Acquire_closed (ctx : Context) (rp : ResourcePool)
    (h : rp.closed = true) : rp.Acquire ctx = (some (.error Error.PoolClosed), rp) := by
  simp [ResourcePool.Acquire, h]

/-- On a closed resource pool `Release` adds no idle resource. -/
theorem ResourcePool.Release_closed (r : Resource) (rp : ResourcePool)
    (h : rp.closed = true ∧ rp.idle = []) :
    (rp.Release r).closed = true ∧ (rp.Release r).idle = [] := by
  unfold ResourcePool.Release
  split_ifs <;> simp_all

/-- A property of the resource pool kept by its `Acquire`, `Release` and
`Close` is kept by every step of the pool. -/
theorem Pool.step_preserves (P : ResourcePool → Prop)
    (hA : ∀ ctx rp, P rp → P (rp.Acquire ctx).2)
    (hR : ∀ r rp, P rp → P (rp.Release r))
    (hC : ∀ rp, P rp → P rp.Close.2)
    (net : List Bool) (o : Op) (p p1 : Pool ResourcePool)
    (hp : P p.p) (hstep : p.step net o = some p1) : P p1.p := by
  have key : ∀ ctx, ∃ o s1, (puddle net).Acquire ctx p.p = (o, s1) ∧ P s1 := by
    intro ctx
    exact ⟨_, _, rfl, hA ctx p.p hp⟩
  cases o with
  | Acquire ctx =>
    simp only [Pool.step, Option.some.injEq] at hstep
    rw [← hstep]
    obtain ⟨o, s1, h, h1⟩ := key ctx
    rcases o with _ | (e | r)
    · rw [Pool.Acquire_blocked _ h]; exact h1
    · rw [Pool.Acquire_error _ h]; exact h1
    · rw [Pool.Acquire_ok _ h]; exact h1
  | Release c =>
    simp only [Pool.step] at hstep
    split_ifs at hstep
    simp only [Option.some.injEq] at hstep
    rw [← hstep]
    exact hR c.res p.p hp
  | Exec D ctx sql arguments =>
    simp only [Pool.step, Option.some.injEq] at hstep
    rw [← hstep]
    obtain ⟨o, s1, h, h1⟩ := key ctx
    rcases o with _ | (e | r)
    · simp only [Pool.Exec, Pool.Acquire_blocked _ h]; exact h1
    · simp only [Pool.Exec, Pool.Acquire_error _ h]; exact h1
    · simp only [Pool.Exec, Pool.Acquire_ok _ h]; exact hR r s1 h1
  | Query D ctx sql args =>
    simp only [Pool.step, Option.some.injEq] at hstep
    rw [← hstep]
    obtain ⟨o, s1, h, h1⟩ := key ctx
    rcases o with _ | (e | r)
    · simp only [Pool.Query, Pool.Acquire_blocked _ h]; exact h1
    · simp only [Pool.Query, Pool.Acquire_error _ h]; exact h1
    · simp only [Pool.Query, Pool.Acquire_ok _ h, Conn.Query]
      cases D.Query ⟨r⟩ ctx sql args with
      | error e => exact hR r s1 h1
      | ok rows => exact h1
  | QueryRow D ctx sql args =>
    simp only [Pool.step, Option.some.injEq] at hstep
    rw [← hstep]
    obtain ⟨o, s1, h, h1⟩ := key ctx
    rcases o with _ | (e | r)
    · simp only [Pool.QueryRow, Pool.Acquire_blocked _ h]; exact h1
    · simp only [Pool.QueryRow, Pool.Acquire_error _ h]; exact h1
    · simp only [Pool.QueryRow, Pool.Acquire_ok _ h, Conn.QueryRow]; exact h1
  | Begin D =>
    simp only [Pool.step, Option.some.injEq] at hstep
    rw [← hstep]
    obtain ⟨o, s1, h, h1⟩ := key Context.Background
    rcases o with _ | (e | r)
    · simp only [Pool.Begin, Pool.Acquire_blocked _ h]; exact h1
    · simp only [Pool.Begin, Pool.Acquire_error _ h]; exact h1
    · simp only [Pool.Begin, Pool.Acquire_ok _ h, Conn.Begin]
      cases D.Begin ⟨r⟩ with
      | error e => exact h1
      | ok t => exact h1
  | Close =>
    simp only [Pool.step, Option.some.injEq] at hstep
    rw [← hstep]
    exact hC p.p hp

/-- A property kept by every step is kept by every run. -/
theorem Pool.run_preserves (P : ResourcePool → Prop)
    (hA : ∀ ctx rp, P rp → P (rp.Acquire ctx).2)
    (hR : ∀ r rp, P rp → P (rp.Release r))
    (hC : ∀ rp, P rp → P rp.Close.2)
    (net : List Bool) (ops : List Op) (p p1 : Pool ResourcePool)
    (hp : P p.p) (hrun : p.run net ops = some p1) : P p1.p := by
  induction ops generalizing p with
  | nil =>
    simp only [Pool.run, Option.some.injEq] at hrun
    rw [← hrun]
    exact hp
  | cons o os ih =>
    simp only [Pool.run] at hrun
    cases hs : p.step net o with
    | none => simp [hs] at hrun
    | some p2 =>
      simp only [hs] at hrun
      exact ih p2 (Pool.step_preserves P hA hR hC net o p p2 hp hs) hrun

/-- The first `Acquire` on a new resource pool of capacity 5 runs the
constructor callback. -/
theorem ResourcePool.NewPool_Acquire (net : List Bool) (ctx : Context) :
    (ResourcePool.NewPool net 5).Acquire ctx =
      if net.headD true then
        if ctx.cancelled then
          (some (.error Error.Cancelled), ⟨5, [⟨0⟩], [], 1, false, 1, 0, net.tail⟩)
        else (some (.ok ⟨0⟩), ⟨5, [], [⟨0⟩], 1, false, 1, 0, net.tail⟩)
      else if ctx.cancelled then
        (some (.error Error.Cancelled), ⟨5, [], [], 0, false, 0, 0, net.tail⟩)
      else (some (.error Error.ConstructFailed), ⟨5, [], [], 0, false, 0, 0, net.tail⟩) := by
  rfl

/-- The pool a successful `Connect` returns, over the resource pool of the
design document: the first connection attempt succeeded, the context did not
fire, and resource 0 is idle. -/
theorem Connect_puddle_success (net : List Bool) (ctx : Context) (connString : String)
    (p : Pool ResourcePool)
    (h : (Connect (puddle net) ctx connString).1 = some (some p, none)) :
    p = ⟨⟨5, [⟨0⟩], [], 1, false, 1, 0, net.tail⟩,
      [Call.newPool connString 5, Call.acquire ctx (some (.ok ⟨0⟩)), Call.release ⟨0⟩]⟩ := by
  have hacq := ResourcePool.NewPool_Acquire net ctx
  cases hh : net.headD true <;> cases hcx : ctx.cancelled <;> rw [hh, hcx] at hacq <;>
    simp [Connect, Pool.puddleAcquire, Pool.puddleClose, puddle, hacq, ResourcePool.Close,
      Resource.Release, ResourcePool.Release] at h
  rw [← h]

/-- C7: the pool a successful `Connect` returns has seen one run of the
constructor callback and no run of the destructor, its calls so far are the
construction of the resource pool, the `Acquire` that returned resource 0 and
the `Release` of resource 0, and its `Stat` reports capacity 5, live count 1,
idle count 1, acquired count 0.  An `Acquire` on it returns a handle, with idle
count 0 and acquired count 1 after it, and the `Release` of that handle gives
idle count 1 and acquired count 0 again. -/
theorem Connect_success_stat (net : List Bool) (ctx : Context) (connString : String)
    (p : Pool ResourcePool)
    (h : (Connect (puddle net) ctx connString).1 = some (some p, none)) :
    (p.p.constructed = 1 ∧ p.p.destructed = 0) ∧
      p.calls =
        [Call.newPool connString 5, Call.acquire ctx (some (.ok ⟨0⟩)), Call.release ⟨0⟩] ∧
      p.Stat (puddle net) = ⟨⟨5, 1, 1, 0⟩⟩ ∧
      ∀ ctx2, ∃ c p1, p.Acquire (puddle net) ctx2 = (some (some c, none), p1) ∧
        p1.Stat (puddle net) = ⟨⟨5, 1, 0, 1⟩⟩ ∧
        (c.Release (puddle net) p1).Stat (puddle net) = ⟨⟨5, 1, 1, 0⟩⟩ := by
  rw [Connect_puddle_success net ctx connString p h]
  refine ⟨⟨rfl, rfl⟩, rfl, rfl, ?_⟩
  intro ctx2
  exact ⟨⟨⟨0⟩⟩, _, rfl, rfl, rfl⟩

/-- Evaluation of C7: `Connect` to a target that accepts connections. -/
theorem Connect_success_stat_witness :
    (Connect (puddle []) Context.Background "host=db").1 = some (some Pool.connected, none) ∧
      Pool.connected.Stat (puddle []) = ⟨⟨5, 1, 1, 0⟩⟩ ∧
      Pool.connected.p.constructed = 1 :=
  have h := Connect_success_stat [] Context.Background "host=db" Pool.connected rfl
  ⟨rfl, h.2.2.1, h.1.1⟩

/-- C8: once `Close` has returned on a pool (it returned at once, or it
waited and by now no resource is Acquired), then after any further calls
`Acquire` fails with `PoolClosed` and returns no handle, `Exec`, `Query`,
`QueryRow` and `Begin` fail with `PoolClosed` too, none of them changes the
resource pool, and `Stat` reports idle count 0 and acquired count 0. -/
theorem Pool_closed_rejects (net : List Bool) (p0 s1 s2 : Pool ResourcePool)
    (ops1 ops2 : List Op)
    (hrun1 : (p0.Close (puddle net)).2.run net ops1 = some s1)
    (hret : (p0.Close (puddle net)).1 = some () ∨ (s1.Stat (puddle net)).s.acquired = 0)
    (hrun2 : s1.run net ops2 = some s2)
    (D : Driver) (ctx : Context) (sql : String) (args : List String) :
    ((s2.Acquire (puddle net) ctx).1 = some (none, some Error.PoolClosed) ∧
        (s2.Acquire (puddle net) ctx).2.p = s2.p) ∧
      ((s2.Exec (puddle net) D ctx sql args).1 = some ("", some Error.PoolClosed) ∧
        (s2.Exec (puddle net) D ctx sql args).2.p = s2.p) ∧
      ((s2.Query (puddle net) D ctx sql args).1 =
          some (Rows.errRows Error.PoolClosed, some Error.PoolClosed) ∧
        (s2.Query (puddle net) D ctx sql args).2.p = s2.p) ∧
      ((s2.QueryRow (puddle net) D ctx sql args).1 = some (Row.errRow Error.PoolClosed) ∧
        (s2.QueryRow (puddle net) D ctx sql args).2.p = s2.p) ∧
      ((s2.Begin (puddle net) D).1 = some (none, some Error.PoolClosed) ∧
        (s2.Begin (puddle net) D).2.p = s2.p) ∧
      (s2.Stat (puddle net)).s.idle = 0 ∧ (s2.Stat (puddle net)).s.acquired = 0 := by
  -- a closed resource pool without idle resources stays so
  have hA1 : ∀ (ctx : Context) (rp : ResourcePool), (rp.closed = true ∧ rp.idle = []) →
      ((rp.Acquire ctx).2.closed = true ∧ (rp.Acquire ctx).2.idle = []) := by
    intro ctx rp h
    rw [ResourcePool.Acquire_closed ctx rp h.1]
    exact h
  have hC1 : ∀ rp : ResourcePool, (rp.closed = true ∧ rp.idle = []) →
      (rp.Close.2.closed = true ∧ rp.Close.2.idle = []) := by
    intro rp _
    exact ⟨rfl, rfl⟩
  have hs1 : s1.p.closed = true ∧ s1.p.idle = [] :=
    Pool.run_preserves (fun rp => rp.closed = true ∧ rp.idle = []) hA1
      (fun r rp h => ResourcePool.Release_closed r rp h) hC1 net ops1 _ s1 ⟨rfl, rfl⟩ hrun1
  -- a drained resource pool stays drained
  have hA2 : ∀ (ctx : Context) (rp : ResourcePool), rp.Drained → (rp.Acquire ctx).2.Drained := by
    intro ctx rp h
    rw [ResourcePool.Acquire_drained ctx rp h]
    exact h
  have hR2 : ∀ (r : Resource) (rp : ResourcePool), rp.Drained → (rp.Release r).Drained := by
    intro r rp h
    rw [ResourcePool.Release_drained r rp h]
    exact h
  have hd1 : s1.p.Drained := by
    rcases hret with hret | hret
    · have h0 : (p0.Close (puddle net)).2.p.Drained := by
        refine ⟨rfl, rfl, ?_⟩
        have : (if p0.p.acquired.isEmpty then some () else none) = some () := hret
        split_ifs at this with hemp
        exact List.isEmpty_iff.mp hemp
      exact Pool.run_preserves ResourcePool.Drained hA2 hR2 ResourcePool.Close_drained
        net ops1 _ s1 h0 hrun1
    · exact ⟨hs1.1, hs1.2, List.length_eq_zero.mp hret⟩
  have hd2 : s2.p.Drained :=
    Pool.run_preserves ResourcePool.Drained hA2 hR2 ResourcePool.Close_drained
      net ops2 s1 s2 hd1 hrun2
  have hacq : ∀ c : Context, (puddle net).Acquire c s2.p =
      (some (.error Error.PoolClosed), s2.p) :=
    fun c => ResourcePool.Acquire_drained c s2.p hd2
  refine ⟨?_, ?_, ?_, ?_, ?_, ?_, ?_⟩
  · simp [Pool.Acquire_error _ (hacq ctx)]
  · simp [Pool.Exec, Pool.Acquire_error _ (hacq ctx)]
  · simp [Pool.Query, Pool.Acquire_error _ (hacq ctx)]
  · simp [Pool.QueryRow, Pool.Acquire_error _ (hacq ctx)]
  · simp [Pool.Begin, Pool.Acquire_error _ (hacq Context.Background)]
  · simp [Pool.Stat, puddle, ResourcePool.Stat, hd2.2.1]
  · simp [Pool.Stat, puddle, ResourcePool.Stat, hd2.2.2]

/-- Evaluation of C8.  First: `Close` on the pool left by `Connect` returns at
once, and a later `Acquire` fails with `PoolClosed`.  Second: with resource 0
borrowed `Close` waits; after the `Release` of resource 0 nothing is Acquired,
and `Query` fails with `PoolClosed`. -/
theorem Pool_closed_rejects_witness :
    (((Pool.connected.Close (puddle [])).2.Acquire (puddle []) ⟨false⟩).1 =
        some (none, some Error.PoolClosed)) ∧
      ((Pool.connected.Acquire (puddle []) ⟨false⟩).2.Close (puddle [])).1 = none ∧
      ((Conn.Release (puddle []) ⟨⟨0⟩⟩
          ((Pool.connected.Acquire (puddle []) ⟨false⟩).2.Close (puddle [])).2).Query
            (puddle []) Driver.serving ⟨false⟩ "select 1" []).1 =
        some (Rows.errRows Error.PoolClosed, some Error.PoolClosed) :=
  ⟨(Pool_closed_rejects [] Pool.connected (Pool.connected.Close (puddle [])).2
      (Pool.connected.Close (puddle [])).2 [] [] rfl (Or.inl rfl) rfl
      Driver.serving ⟨false⟩ "select 1" []).1.1,
    rfl,
    (Pool_closed_rejects [] (Pool.connected.Acquire (puddle []) ⟨false⟩).2
      (Conn.Release (puddle []) ⟨⟨0⟩⟩
        ((Pool.connected.Acquire (puddle []) ⟨false⟩).2.Close (puddle [])).2)
      (Conn.Release (puddle []) ⟨⟨0⟩⟩
        ((Pool.connected.Acquire (puddle []) ⟨false⟩).2.Close (puddle [])).2)
      [Op.Release ⟨⟨0⟩⟩] [] rfl (Or.inr rfl) rfl
      Driver.serving ⟨false⟩ "select 1" []).2.2.1.1⟩

/-- C9: from the pool a successful `Connect` returns, after every sequence of
`Acquire`, `Release`, `Exec`, `Query`, `QueryRow`, `Begin` and `Close` steps
the capacity is still the 5 fixed at construction, the acquired count and the
live count are at most the capacity, and the live count is the idle count plus
the acquired count. -/
theorem Pool_run_within_capacity (net : List Bool) (ctx : Context) (connString : String)
    (p s : Pool ResourcePool) (ops : List Op)
    (hconn : (Connect (puddle net) ctx connString).1 = some (some p, none))
    (hrun : p.run net ops = some s) :
    (s.Stat (puddle net)).s.capacity = 5 ∧
      (s.Stat (puddle net)).s.acquired ≤ (s.Stat (puddle net)).s.capacity ∧
      (s.Stat (puddle net)).s.live ≤ (s.Stat (puddle net)).s.capacity ∧
      (s.Stat (puddle net)).s.live =
        (s.Stat (puddle net)).s.idle + (s.Stat (puddle net)).s.acquired := by
  have h0 : p.p.Bounded ∧ p.p.capacity = 5 := by
    rw [Connect_puddle_success net ctx connString p hconn]
    exact ⟨⟨rfl, Nat.le_of_ble_eq_true rfl⟩, rfl⟩
  have hs : s.p.Bounded ∧ s.p.capacity = 5 :=
    Pool.run_preserves (fun rp => rp.Bounded ∧ rp.capacity = 5)
      (fun c rp h => ⟨ResourcePool.Acquire_bounded c rp h.1,
        (ResourcePool.Acquire_capacity c rp).trans h.2⟩)
      (fun r rp h => ⟨ResourcePool.Release_bounded r rp h.1,
        (ResourcePool.Release_capacity r rp).trans h.2⟩)
      (fun rp h => ⟨ResourcePool.Close_bounded rp h.1,
        (ResourcePool.Close_capacity rp).trans h.2⟩)
      net ops p s h0 hrun
  obtain ⟨⟨hlive, hcap⟩, h5⟩ := hs
  simp only [Pool.Stat, puddle, ResourcePool.Stat]
  omega

/-- Evaluation of C9: six `Begin` calls that the database accepts, each
keeping its connection, then the `Release` of the first: the sixth `Begin` is
parked at capacity, and the counts end at live 5, idle 1, acquired 4. -/
theorem Pool_run_within_capacity_witness :
    (Connect (puddle []) Context.Background "host=db").1 = some (some Pool.connected, none) ∧
      Option.map (fun s => Pool.Stat (puddle []) s)
        (Pool.connected.run []
          [Op.Begin Driver.serving, Op.Begin Driver.serving, Op.Begin Driver.serving,
            Op.Begin Driver.serving, Op.Begin Driver.serving, Op.Begin Driver.serving,
            Op.Release ⟨⟨0⟩⟩]) = some ⟨⟨5, 5, 1, 4⟩⟩ ∧
      (⟨⟨5, 5, 1, 4⟩⟩ : Stat).s.acquired ≤ (⟨⟨5, 5, 1, 4⟩⟩ : Stat).s.capacity :=
  ⟨rfl, rfl,
    (Pool_run_within_capacity [] Context.Background "host=db" Pool.connected
      ⟨⟨5, [⟨0⟩], [⟨1⟩, ⟨2⟩, ⟨3⟩, ⟨4⟩], 5, false, 5, 0, []⟩,
        Pool.connected.calls ++
          [Call.acquire Context.Background (some (.ok ⟨0⟩)), Call.begin ⟨⟨0⟩⟩,
            Call.acquire Context.Background (some (.ok ⟨1⟩)), Call.begin ⟨⟨1⟩⟩,
            Call.acquire Context.Background (some (.ok ⟨2⟩)), Call.begin ⟨⟨2⟩⟩,
            Call.acquire Context.Background (some (.ok ⟨3⟩)), Call.begin ⟨⟨3⟩⟩,
            Call.acquire Context.Background (some (.ok ⟨4⟩)), Call.begin ⟨⟨4⟩⟩,
            Call.acquire Context.Background none, Call.release ⟨0⟩]⟩
      [Op.Begin Driver.serving, Op.Begin Driver.serving, Op.Begin Driver.serving,
        Op.Begin Driver.serving, Op.Begin Driver.serving, Op.Begin Driver.serving,
        Op.Release ⟨⟨0⟩⟩] rfl rfl).2.1⟩

end Pgx
